import Mathlib

/-!
Verification development for the semantic-relevance ranking engine of this
repository, in two variants: the document-keyword verifier (src/k2/app.py)
and the RAG code-generation tool (src/futureapp/build_db.py,
src/futureapp/code_qa.py).  Distances and similarities are modelled as
rationals; the embedding provider, the chromadb vector store and the Python
json module are external collaborators and are modelled explicitly where a
claim depends on their documented behaviour.
-/

namespace K2

/-- The collection name passed to `get_or_create_collection` in
`find_semantic_matches` (src/k2/app.py line 114): the string literal
`"temp_document_collection"`. -/
def tempDocumentCollectionName : String := "temp_document_collection"

/-- The ephemeral collection name used by one call of `find_semantic_matches`:
the source passes the same string literal on every call, so the name does not
depend on any per-call identifier. -/
def ephemeralNameOfCall (_callId : ℕ) : String := tempDocumentCollectionName

/-- Model of the chromadb client state (external collaborator): the live
collections, each a name paired with the ordered list of its (id, document)
units. -/
abbrev ClientState := List (String × List (String × String))

/-- Whether a collection with the given name is live. -/
def hasCollection (s : ClientState) (name : String) : Bool :=
  s.any fun c => c.1 == name

/-- chromadb `get_or_create_collection`: returns the existing collection when
the name is already live, otherwise creates an empty one. -/
def getOrCreateCollection (s : ClientState) (name : String) : ClientState :=
  if hasCollection s name then s else s ++ [(name, [])]

/-- chromadb `Collection.add`: appends units to the named collection. -/
def addUnits (s : ClientState) (name : String) (us : List (String × String)) :
    ClientState :=
  s.map fun c => if c.1 == name then (c.1, c.2 ++ us) else c

/-- The units currently held by the named collection. -/
def unitsOf (s : ClientState) (name : String) : List (String × String) :=
  ((s.find? fun c => c.1 == name).map Prod.snd).getD []

/-- Modelled from the spec: `destroy(handle)` of the VectorIndex component
(spec section 4.3).  The repository has no implementation of this operation
under src/ (it delegates to the external chromadb library); per the spec it
releases the named collection and is a no-op, not an error, on an unknown or
already-destroyed name, so it is a total function on the client state. -/
def destroyCollection (s : ClientState) (name : String) : ClientState :=
  s.filter fun c => c.1 != name

/-- Observable control-flow outcome of one `find_semantic_matches` call:
whether the ephemeral collection was created, whether `delete_collection`
ran on it, and whether a result was returned. -/
structure CallTrace where
  created : Bool
  destroyed : Bool
  returned : Bool
deriving DecidableEq

/-- Control-flow embedding of `find_semantic_matches` (src/k2/app.py lines
113-174).  `get_or_create_collection` (line 114) and `doc_collection.add`
(line 118) execute before the `try:` block begins at line 120; the
`finally:` block (lines 172-174) runs `delete_collection` only for exits of
the `try:` body, i.e. for the query/aggregation steps and the return.  The
two Booleans say whether `add` and whether `query` raise. -/
def findSemanticMatchesFlow (addRaises queryRaises : Bool) : CallTrace :=
  if addRaises then
    { created := true, destroyed := false, returned := false }
  else if queryRaises then
    { created := true, destroyed := true, returned := false }
  else
    { created := true, destroyed := true, returned := true }

/-- Entry of the `keyword_matches` dict built in `find_semantic_matches`
(src/k2/app.py lines 131-147). -/
structure KeywordMatch where
  keyword : String
  top_match_sentence : String
  top_match_distance : ℚ
  all_matched_sentences : List String
  all_distances : List ℚ
deriving DecidableEq

/-- Entry of the `overall_best_matches` list (src/k2/app.py lines 153-159). -/
structure OverallEntry where
  keyword : String
  distance : ℚ
  matched_sentence : String
deriving DecidableEq

/-- The `keyword_matches` dict (src/k2/app.py lines 131-147): one entry per
keyword, in keyword order (Python dicts preserve insertion order), holding
the head of the result lists as best match; a keyword whose result lists are
empty is skipped by the `if matched_sentences and distances:` guard.  The
per-keyword result lists are chromadb's output for that keyword's query. -/
def buildKeywordMatches : List String → List (List String) → List (List ℚ) →
    List KeywordMatch
  | kw :: kws, (s :: ss) :: docss, (d :: ds) :: distss =>
      ⟨kw, s, d, s :: ss, d :: ds⟩ :: buildKeywordMatches kws docss distss
  | _ :: kws, _ :: docss, _ :: distss => buildKeywordMatches kws docss distss
  | _, _, _ => []

/-- The `overall_best_matches` list before sorting (src/k2/app.py lines
153-159), in the iteration order of the `keyword_matches` dict. -/
def overallBestMatches (kms : List KeywordMatch) : List OverallEntry :=
  kms.map fun k => ⟨k.keyword, k.top_match_distance, k.top_match_sentence⟩

/-- The comparison used by `overall_best_matches.sort(key=lambda x:
x['distance'])` (src/k2/app.py line 162). -/
def entryLE (a b : OverallEntry) : Prop := a.distance ≤ b.distance

instance : DecidableRel entryLE := fun a b =>
  inferInstanceAs (Decidable (a.distance ≤ b.distance))

instance : IsTotal OverallEntry entryLE :=
  ⟨fun a b => le_total a.distance b.distance⟩

instance : IsTrans OverallEntry entryLE :=
  ⟨fun _ _ _ h1 h2 => le_trans h1 h2⟩

/-- Python `list.sort` is stable: it produces the unique sorted permutation
in which entries with equal keys keep their original relative order, which is
what insertion sort with `≤` on the key computes. -/
def sortOverall (l : List OverallEntry) : List OverallEntry :=
  List.insertionSort entryLE l

/-- Embedding of the aggregation of `find_semantic_matches` (src/k2/app.py
lines 128-170) on the per-keyword query results: returns the pair
(`top_keywords_overall`, `keyword_details`). -/
def findSemanticMatches (keywords : List String) (docs : List (List String))
    (dists : List (List ℚ)) (numResults : ℕ) :
    List OverallEntry × List KeywordMatch :=
  let kms := buildKeywordMatches keywords docs dists
  ((sortOverall (overallBestMatches kms)).take numResults, kms)

end K2

namespace Json

/-!
Model of the Python standard-library `json` module (external collaborator),
specialised to what the repository stores in chromadb metadata: a JSON array
of strings.  `build_db.store_snippets` writes `json.dumps(snippet.keywords)`
(src/futureapp/build_db.py line 234) and `code_qa.retrieve_similar_snippets`
reads it back with `json.loads(metadata['keywords'])`
(src/futureapp/code_qa.py line 134).
-/

/-- Lower-case hexadecimal digit for a value below 16. -/
def hexDigitChar (n : ℕ) : Char :=
  if n < 10 then Char.ofNat (48 + n) else Char.ofNat (87 + n)

/-- Serialisation of one character inside a JSON string literal: quote and
backslash are escaped, control characters are emitted as `\u00XX` escapes,
every other character stands for itself. -/
def escapeChar (c : Char) : List Char :=
  if c = '"' then ['\\', '"']
  else if c = '\\' then ['\\', '\\']
  else if c.toNat < 32 then
    ['\\', 'u', '0', '0', hexDigitChar (c.toNat / 16), hexDigitChar (c.toNat % 16)]
  else [c]

/-- A JSON string literal for the given characters. -/
def encodeStringChars (s : List Char) : List Char :=
  '"' :: ((s.map escapeChar).flatten ++ ['"'])

/-- The element separator of `json.dumps` with default separators: `", "`. -/
def sepJoin : List (List Char) → List Char
  | [] => []
  | [x] => x
  | x :: y :: rest => x ++ ',' :: ' ' :: sepJoin (y :: rest)

/-- `json.dumps` on a list of strings (default separators). -/
def jsonDumpsStringList (l : List String) : String :=
  String.mk ('[' :: (sepJoin (l.map fun s => encodeStringChars s.data) ++ [']']))

/-- Value of a hexadecimal digit character. -/
def hexVal (c : Char) : Option ℕ :=
  if 48 ≤ c.toNat ∧ c.toNat ≤ 57 then some (c.toNat - 48)
  else if 97 ≤ c.toNat ∧ c.toNat ≤ 102 then some (c.toNat - 87)
  else if 65 ≤ c.toNat ∧ c.toNat ≤ 70 then some (c.toNat - 55)
  else none

/-- The two-character escapes accepted inside a JSON string literal. -/
def unescapeChar (c : Char) : Option Char :=
  if c = '"' then some '"'
  else if c = '\\' then some '\\'
  else if c = '/' then some '/'
  else if c = 'b' then some (Char.ofNat 8)
  else if c = 'f' then some (Char.ofNat 12)
  else if c = 'n' then some (Char.ofNat 10)
  else if c = 'r' then some (Char.ofNat 13)
  else if c = 't' then some (Char.ofNat 9)
  else none

/-- Parser for the body of a JSON string literal, positioned just after the
opening quote; on success returns the decoded characters and the input
remaining after the closing quote.  `none` models a `json.loads` error. -/
def parseStringBody : List Char → Option (List Char × List Char)
  | [] => none
  | c :: rest =>
    if c = '"' then some ([], rest)
    else if c = '\\' then
      match rest with
      | [] => none
      | e :: rest2 =>
        if e = 'u' then
          match rest2 with
          | h1 :: h2 :: h3 :: h4 :: rest3 =>
            match hexVal h1, hexVal h2, hexVal h3, hexVal h4 with
            | some a, some b, some c2, some d2 =>
              match parseStringBody rest3 with
              | some (s, r) =>
                  some (Char.ofNat (((a * 16 + b) * 16 + c2) * 16 + d2) :: s, r)
              | none => none
            | _, _, _, _ => none
          | _ => none
        else
          match unescapeChar e with
          | some ch =>
            match parseStringBody rest2 with
            | some (s, r) => some (ch :: s, r)
            | none => none
          | none => none
    else
      match parseStringBody rest with
      | some (s, r) => some (c :: s, r)
      | none => none

/-- JSON insignificant whitespace. -/
def skipWs (l : List Char) : List Char :=
  l.dropWhile fun c => c == ' ' || c == '\t' || c == '\n' || c == '\r'

/-- Parser for the elements of a non-empty JSON array of strings, positioned
at the first character of an element; the fuel bounds the number of elements
(one unit each). -/
def parseElemsAux : ℕ → List Char → Option (List (List Char) × List Char)
  | 0, _ => none
  | fuel + 1, l =>
    match l with
    | [] => none
    | c :: rest =>
      if c = '"' then
        match parseStringBody rest with
        | none => none
        | some (s, r) =>
          match skipWs r with
          | [] => none
          | c2 :: r2 =>
            if c2 = ']' then some ([s], r2)
            else if c2 = ',' then
              match parseElemsAux fuel (skipWs r2) with
              | none => none
              | some (elems, r3) => some (s :: elems, r3)
            else none
      else none

/-- `json.loads` specialised to a JSON array of strings; `none` models the
exception raised on malformed input or on a document of another shape. -/
def jsonLoadsStringList (str : String) : Option (List String) :=
  match skipWs str.data with
  | [] => none
  | c :: rest =>
    if c = '[' then
      match skipWs rest with
      | [] => none
      | c2 :: rest2 =>
        if c2 = ']' then
          if skipWs rest2 = [] then some [] else none
        else
          match parseElemsAux (rest.length + 1) (skipWs rest) with
          | none => none
          | some (elems, rest3) =>
            if skipWs rest3 = [] then some (elems.map fun cs => String.mk cs)
            else none
    else none

end Json

namespace CodeQA

/-- One row of the chromadb query result consumed by
`retrieve_similar_snippets` (src/futureapp/code_qa.py lines 120-139): the
entries of `ids[0]`, `documents[0]`, `metadatas[0]` and `distances[0]` at one
index, for the single query of the call. -/
structure ChromaRow where
  id : String
  document : String
  description : String
  keywordsJson : String
  category : String
  language : String
  distance : ℚ
deriving DecidableEq

/-- The `RetrievedSnippet` dataclass (src/futureapp/code_qa.py lines 53-62). -/
structure RetrievedSnippet where
  id : String
  code : String
  description : String
  keywords : List String
  category : String
  language : String
  similarity : ℚ
deriving DecidableEq

/-- Embedding of the result loop of `retrieve_similar_snippets`
(src/futureapp/code_qa.py lines 118-141): similarity is `1 - distance`; a row
below the threshold is skipped by `continue` before its metadata is read; the
keyword metadata of a kept row is decoded with `json.loads`, whose failure
(`none`) aborts the whole call like the uncaught Python exception would. -/
def retrieveSimilarSnippets (threshold : ℚ) :
    List ChromaRow → Option (List RetrievedSnippet)
  | [] => some []
  | r :: rs =>
    let similarity := 1 - r.distance
    if similarity < threshold then retrieveSimilarSnippets threshold rs
    else
      match Json.jsonLoadsStringList r.keywordsJson with
      | none => none
      | some kws =>
        match retrieveSimilarSnippets threshold rs with
        | none => none
        | some out =>
          some (⟨r.id, r.document, r.description, kws, r.category, r.language,
                 similarity⟩ :: out)

/-- The per-example block of `build_rag_prompt` (src/futureapp/code_qa.py
lines 167-178), with 1-based example numbering from `enumerate(snippets, 1)`. -/
def ragExampleBlocks : ℕ → List RetrievedSnippet → String
  | _, [] => ""
  | i, s :: rest =>
    "\n---\n**Example " ++ toString i ++ ": " ++ s.description ++
    "**\n- Category: " ++ s.category ++
    "\n- Keywords: " ++ String.intercalate ", " s.keywords ++
    "\n- Language: " ++ s.language ++
    "\n\n```" ++ s.language ++ "\n" ++ s.code ++ "\n```\n" ++
    ragExampleBlocks (i + 1) rest

/-- `build_rag_prompt` (src/futureapp/code_qa.py lines 148-200), a pure
string builder. -/
def buildRagPrompt (query : String) (snippets : List RetrievedSnippet) :
    String :=
  "You are an expert code generation assistant. Your task is to generate \n" ++
  "high-quality code based on the user's request and the reference examples provided.\n" ++
  "\n### REFERENCE CODE EXAMPLES\n\n" ++
  "The following code snippets are from our codebase. Use them as patterns and references:\n\n" ++
  ragExampleBlocks 1 snippets ++
  "\n---\n\n### USER REQUEST\n\n" ++ query ++
  "\n\n### INSTRUCTIONS\n\n" ++
  "1. Generate complete, working code that addresses the user's request\n" ++
  "2. Follow the patterns and styling conventions from the reference examples\n" ++
  "3. Use the same technologies/libraries shown in the examples (e.g., Tailwind CSS classes)\n" ++
  "4. Make the code production-ready with proper structure\n" ++
  "5. If the examples use HTML with Tailwind, continue that pattern\n" ++
  "6. If the examples use Lex/YACC patterns, follow those conventions\n" ++
  "\n### GENERATED CODE\n\n"

/-- `build_simple_prompt` (src/futureapp/code_qa.py lines 203-214). -/
def buildSimplePrompt (query : String) : String :=
  "You are an expert code generation assistant.\n\n" ++
  "Generate complete, working code for the following request:\n\n" ++
  query ++
  "\n\nProvide clean, well-structured code with comments where helpful.\n"

/-- The prompt selection of `process_query` (src/futureapp/code_qa.py lines
270-274): the RAG prompt when snippets were retrieved, the simple prompt
otherwise. -/
def choosePrompt (query : String) (snippets : List RetrievedSnippet) : String :=
  if snippets.isEmpty then buildSimplePrompt query
  else buildRagPrompt query snippets

end CodeQA

namespace BuildDB

/-- The `CodeSnippet` dataclass (src/futureapp/build_db.py lines 46-58). -/
structure CodeSnippet where
  id : String
  category : String
  subcategory : String
  keywords : List String
  description : String
  search_text : String
  language : String
  code : String
  dependencies : List String
  difficulty : String
deriving DecidableEq

/-- The `search_content` string assembled by `create_search_embedding`
(src/futureapp/build_db.py lines 142-148): keywords, description,
category/subcategory and search_text joined by the f-string layout, then
stripped of surrounding whitespace.  The code body does not occur in it. -/
def searchContent (s : CodeSnippet) : String :=
  ("\n    " ++ String.intercalate " " s.keywords ++
   "\n    " ++ s.description ++
   "\n    " ++ s.category ++ " " ++ s.subcategory ++
   "\n    " ++ s.search_text ++ "\n    ").trim

/-- `create_search_embedding` (src/futureapp/build_db.py lines 128-156): the
embedding provider (ollama, external collaborator) is the function `embed`;
only the search content is embedded. -/
def createSearchEmbedding (embed : String → List ℚ) (s : CodeSnippet) :
    List ℚ :=
  embed (searchContent s)

/-- The metadata dict stored per snippet by `store_snippets`
(src/futureapp/build_db.py lines 231-240); list-valued fields are
JSON-encoded strings. -/
structure StoredMetadata where
  category : String
  subcategory : String
  keywords : String
  description : String
  search_text : String
  language : String
  dependencies : String
  difficulty : String
deriving DecidableEq

/-- One record of the persistent collection as written by
`collection.add(ids=..., embeddings=..., documents=..., metadatas=...)`
(src/futureapp/build_db.py lines 243-248). -/
structure StoredRecord where
  id : String
  embedding : List ℚ
  document : String
  metadata : StoredMetadata
deriving DecidableEq

/-- The record `store_snippets` assembles for one snippet (src/futureapp/
build_db.py lines 228-240): the code body goes into `documents` verbatim,
the keyword and dependency lists are JSON-encoded into metadata, and the
given embedding is stored as the vector. -/
def storeRecord (embedding : List ℚ) (s : CodeSnippet) : StoredRecord :=
  ⟨s.id, embedding, s.code,
   ⟨s.category, s.subcategory, Json.jsonDumpsStringList s.keywords,
    s.description, s.search_text, s.language,
    Json.jsonDumpsStringList s.dependencies, s.difficulty⟩⟩

/-- `generate_all_embeddings` (src/futureapp/build_db.py lines 159-176). -/
def generateAllEmbeddings (embed : String → List ℚ)
    (snippets : List CodeSnippet) : List (List ℚ) :=
  snippets.map (createSearchEmbedding embed)

/-- `store_snippets` (src/futureapp/build_db.py lines 196-252): pairs the
snippets with the separately generated embeddings positionally. -/
def storeSnippets (snippets : List CodeSnippet) (embeddings : List (List ℚ)) :
    List StoredRecord :=
  (embeddings.zip snippets).map fun p => storeRecord p.1 p.2

/-- Steps 2 and 3 of `build_db.main` (src/futureapp/build_db.py lines
353-373): generate all embeddings, then store. -/
def buildDb (embed : String → List ℚ) (snippets : List CodeSnippet) :
    List StoredRecord :=
  storeSnippets snippets (generateAllEmbeddings embed snippets)

/-- chromadb returns the stored id, document and metadata fields verbatim
together with the query distance (external collaborator). -/
def rowOfRecord (rec : StoredRecord) (dist : ℚ) : CodeQA.ChromaRow :=
  ⟨rec.id, rec.document, rec.metadata.description, rec.metadata.keywords,
   rec.metadata.category, rec.metadata.language, dist⟩

end BuildDB

namespace Cosine

/-- Dot product of two vectors (spec section 4.3, distance semantics). -/
def dot (u v : List ℝ) : ℝ := (List.zipWith (· * ·) u v).sum

/-- Squared Euclidean norm. -/
def normSq (u : List ℝ) : ℝ := dot u u

/-- Modelled from the spec: the cosine distance of the VectorIndex component
(spec section 4.3).  The repository has no distance implementation under src/
(it delegates to chromadb), so the definition follows the spec's words:
similarity is the dot product over the product of the norms, distance is one
minus similarity, and when either vector has zero norm the distance is
defined to be 1 outright, the division never being performed. -/
noncomputable def cosineDistance (u v : List ℝ) : ℝ :=
  if normSq u = 0 ∨ normSq v = 0 then 1
  else 1 - dot u v / (Real.sqrt (normSq u) * Real.sqrt (normSq v))

end Cosine

/-! ## Lemmas about the json model -/

namespace Json


theorem hexVal_hexDigitChar : ∀ n : ℕ, n < 16 → hexVal (hexDigitChar n) = some n := by
  decide

theorem parseStringBody_encode (s : List Char) (rest : List Char) :
    parseStringBody ((s.map escapeChar).flatten ++ '"' :: rest) = some (s, rest) := by
  induction s with
  | nil =>
    rw [List.map_nil, List.flatten_nil, List.nil_append, parseStringBody.eq_def]
    simp
  | cons c s ih =>
    by_cases hq : c = '"'
    · subst hq
      rw [List.map_cons, List.flatten_cons]
      rw [show escapeChar '"' = ['\\', '"'] from rfl]
      rw [List.cons_append, List.cons_append, parseStringBody.eq_def]
      simp [unescapeChar, ih]
    · by_cases hb : c = '\\'
      · subst hb
        rw [List.map_cons, List.flatten_cons]
        rw [show escapeChar '\\' = ['\\', '\\'] from rfl]
        rw [List.cons_append, List.cons_append, parseStringBody.eq_def]
        simp [unescapeChar, ih]
      · by_cases hc : c.toNat < 32
        · have h16a : c.toNat / 16 < 16 := by omega
          have h16b : c.toNat % 16 < 16 := by omega
          rw [List.map_cons, List.flatten_cons]
          rw [show escapeChar c = ['\\', 'u', '0', '0', hexDigitChar (c.toNat / 16),
                hexDigitChar (c.toNat % 16)] from by
            simp [escapeChar, hq, hb, hc]]
          rw [List.cons_append, List.cons_append, List.cons_append, List.cons_append,
            List.cons_append, List.cons_append, parseStringBody.eq_def]
          simp only []
          simp [hexVal_hexDigitChar _ h16a, hexVal_hexDigitChar _ h16b, ih,
            show hexVal '0' = some 0 from rfl]
          have hn : c.toNat / 16 * 16 + c.toNat % 16 = c.toNat := by
            omega
          rw [hn, Char.ofNat_toNat]
        · rw [List.map_cons, List.flatten_cons]
          rw [show escapeChar c = [c] from by simp [escapeChar, hq, hb, hc]]
          rw [List.cons_append, List.nil_append, parseStringBody.eq_def]
          simp [hq, hb, ih]

theorem skipWs_cons_quote (t : List Char) : skipWs ('"' :: t) = '"' :: t := by
  simp [skipWs, List.dropWhile_cons]

theorem skipWs_cons_rbracket (t : List Char) : skipWs (']' :: t) = ']' :: t := by
  simp [skipWs, List.dropWhile_cons]

theorem skipWs_cons_comma (t : List Char) : skipWs (',' :: t) = ',' :: t := by
  simp [skipWs, List.dropWhile_cons]

theorem skipWs_cons_space (t : List Char) : skipWs (' ' :: t) = skipWs t := by
  simp [skipWs, List.dropWhile_cons]

theorem sepJoin_encode_cons (x : List Char) (xs : List (List Char)) :
    ∃ t, sepJoin ((x :: xs).map encodeStringChars) = '"' :: t := by
  cases xs with
  | nil => exact ⟨(x.map escapeChar).flatten ++ ['"'], rfl⟩
  | cons y ys =>
    exact ⟨((x.map escapeChar).flatten ++ ['"']) ++
      ',' :: ' ' :: sepJoin ((y :: ys).map encodeStringChars), rfl⟩

theorem sepJoin_encode_length (l : List (List Char)) :
    l.length ≤ (sepJoin (l.map encodeStringChars)).length := by
  induction l with
  | nil => simp [sepJoin]
  | cons x xs ih =>
    cases xs with
    | nil => simp [sepJoin, encodeStringChars]
    | cons y ys =>
      rw [List.map_cons,
        show sepJoin (encodeStringChars x :: ((y :: ys).map encodeStringChars)) =
          encodeStringChars x ++ ',' :: ' ' ::
            sepJoin ((y :: ys).map encodeStringChars) from rfl]
      simp only [List.length_append, List.length_cons, encodeStringChars] at *
      omega

theorem skipWs_sepJoin_encode (y : List Char) (ys : List (List Char))
    (r : List Char) :
    skipWs (sepJoin ((y :: ys).map encodeStringChars) ++ r) =
      sepJoin ((y :: ys).map encodeStringChars) ++ r := by
  obtain ⟨t, ht⟩ := sepJoin_encode_cons y ys
  rw [ht, List.cons_append, skipWs_cons_quote]

theorem parseElemsAux_encode (xs : List (List Char)) :
    ∀ (x : List Char) (fuel : ℕ) (rest : List Char), xs.length < fuel →
    parseElemsAux fuel (sepJoin ((x :: xs).map encodeStringChars) ++ ']' :: rest) =
      some (x :: xs, rest) := by
  induction xs with
  | nil =>
    intro x fuel rest hf
    obtain ⟨f, rfl⟩ : ∃ f, fuel = f + 1 := ⟨fuel - 1, by omega⟩
    rw [List.map_cons, List.map_nil,
      show sepJoin [encodeStringChars x] = encodeStringChars x from rfl,
      encodeStringChars, List.cons_append, parseElemsAux]
    simp only [List.append_assoc, List.singleton_append, reduceIte]
    rw [parseStringBody_encode]
    simp [skipWs_cons_rbracket]
  | cons y ys ih =>
    intro x fuel rest hf
    obtain ⟨f, rfl⟩ : ∃ f, fuel = f + 1 := ⟨fuel - 1, by omega⟩
    rw [List.map_cons,
      show sepJoin (encodeStringChars x :: ((y :: ys).map encodeStringChars)) =
        encodeStringChars x ++ ',' :: ' ' ::
          sepJoin ((y :: ys).map encodeStringChars) from rfl,
      encodeStringChars, List.cons_append, parseElemsAux.eq_def]
    simp only [List.append_assoc, List.cons_append, List.singleton_append, reduceIte]
    rw [parseStringBody_encode]
    simp only [List.nil_append, skipWs_cons_comma, reduceIte, skipWs_cons_space,
      skipWs_sepJoin_encode]
    rw [ih y f rest (by simp at hf; omega)]
    simp

theorem strMk_data (s : String) : String.mk s.data = s := rfl

theorem jsonLoads_jsonDumps (l : List String) :
    jsonLoadsStringList (jsonDumpsStringList l) = some l := by
  cases l with
  | nil => decide
  | cons x xs =>
    rw [jsonDumpsStringList, jsonLoadsStringList]
    rw [show ((x :: xs).map fun s => encodeStringChars s.data) =
        (x.data :: xs.map String.data).map encodeStringChars from by
      simp [List.map_map, Function.comp]]
    rw [show (String.mk ('[' :: (sepJoin ((x.data :: xs.map String.data).map
          encodeStringChars) ++ [']']))).data =
        '[' :: (sepJoin ((x.data :: xs.map String.data).map encodeStringChars)
          ++ [']']) from rfl]
    rw [show skipWs ('[' :: (sepJoin ((x.data :: xs.map String.data).map
          encodeStringChars) ++ [']'])) =
        '[' :: (sepJoin ((x.data :: xs.map String.data).map encodeStringChars)
          ++ [']']) from by simp [skipWs, List.dropWhile_cons]]
    simp only [reduceIte]
    rw [show (sepJoin ((x.data :: xs.map String.data).map encodeStringChars) ++ [']']) =
        (sepJoin ((x.data :: xs.map String.data).map encodeStringChars) ++ ']' :: [])
      from rfl]
    rw [skipWs_sepJoin_encode]
    have hfuel : (xs.map String.data).length <
        (sepJoin ((x.data :: xs.map String.data).map encodeStringChars)
          ++ ']' :: []).length + 1 := by
      have hlen := sepJoin_encode_length (x.data :: xs.map String.data)
      simp only [List.length_cons, List.length_map, List.length_append] at hlen ⊢
      omega
    rw [parseElemsAux_encode (xs.map String.data) x.data _ [] hfuel]
    obtain ⟨t, ht⟩ := sepJoin_encode_cons x.data (xs.map String.data)
    rw [ht]
    simp only [List.cons_append]
    rw [show ((x.data :: xs.map String.data).map fun cs => String.mk cs) =
        (x :: xs) from by
      simp only [List.map_cons, List.map_map, strMk_data]
      congr 1
      exact List.map_id'' (fun s => strMk_data s) xs]
    simp [skipWs]

end Json

/-! ## Lemmas about the k2 aggregation and the retrieval filter -/

namespace K2

theorem filter_orderedInsert (d : ℚ) (a : OverallEntry) (l : List OverallEntry) :
    (List.orderedInsert entryLE a l).filter (fun e => decide (e.distance = d)) =
      if a.distance = d then
        a :: l.filter (fun e => decide (e.distance = d))
      else l.filter (fun e => decide (e.distance = d)) := by
  induction l with
  | nil => simp [List.orderedInsert]; split <;> simp_all
  | cons b t ih =>
    rw [List.orderedInsert]
    by_cases hab : entryLE a b
    · rw [if_pos hab]
      by_cases had : a.distance = d <;> simp [had, List.filter_cons]
    · rw [if_neg hab]
      have hba : b.distance < a.distance := by
        simp only [entryLE, not_le] at hab
        exact hab
      by_cases had : a.distance = d
      · have hbd : ¬ b.distance = d := by
          intro h
          rw [had] at hba
          rw [h] at hba
          exact lt_irrefl d hba
        simp [List.filter_cons, hbd, ih, had]
      · by_cases hbd : b.distance = d <;> simp [List.filter_cons, hbd, ih, had]

theorem filter_sortOverall (d : ℚ) (l : List OverallEntry) :
    (sortOverall l).filter (fun e => decide (e.distance = d)) =
      l.filter (fun e => decide (e.distance = d)) := by
  induction l with
  | nil => rfl
  | cons a t ih =>
    rw [sortOverall, List.insertionSort]
    rw [show List.insertionSort entryLE t = sortOverall t from rfl]
    rw [filter_orderedInsert, ih]
    by_cases had : a.distance = d <;> simp [List.filter_cons, had]

theorem buildKeywordMatches_length :
    ∀ (kws : List String) (docss : List (List String)) (distss : List (List ℚ)),
    docss.length = kws.length → distss.length = kws.length →
    (∀ l ∈ docss, l ≠ []) → (∀ l ∈ distss, l ≠ []) →
    (buildKeywordMatches kws docss distss).length = kws.length := by
  intro kws
  induction kws with
  | nil =>
    intro docss distss h1 h2 _ _
    rw [List.length_eq_zero.mp h1, List.length_eq_zero.mp h2]
    rfl
  | cons kw kws ih =>
    intro docss distss h1 h2 hd hs
    match docss, distss with
    | [], _ => simp at h1
    | _, [] => simp at h2
    | docs :: docss, dists :: distss =>
      match docs, dists with
      | [], _ => exact absurd rfl (hd [] (by simp))
      | _ :: _, [] => exact absurd rfl (hs [] (by simp))
      | s :: ss, dd :: ds =>
        rw [buildKeywordMatches, List.length_cons, List.length_cons]
        rw [ih docss distss (by simpa using h1) (by simpa using h2)
          (fun l hl => hd l (by simp [hl])) (fun l hl => hs l (by simp [hl]))]

end K2
namespace CodeQA

theorem retrieveSimilarSnippets_sound (t : ℚ) :
    ∀ (rows : List ChromaRow) (out : List RetrievedSnippet),
    retrieveSimilarSnippets t rows = some out →
    (∀ s ∈ out, t ≤ s.similarity) ∧
    out.map (fun s => s.similarity) =
      (rows.filter fun r => decide (t ≤ 1 - r.distance)).map fun r => 1 - r.distance := by
  intro rows
  induction rows with
  | nil =>
    intro out h
    rw [retrieveSimilarSnippets] at h
    cases h
    exact ⟨by simp, by simp⟩
  | cons r rs ih =>
    intro out h
    rw [retrieveSimilarSnippets] at h
    by_cases hlt : 1 - r.distance < t
    · rw [if_pos hlt] at h
      obtain ⟨h1, h2⟩ := ih out h
      refine ⟨h1, ?_⟩
      rw [List.filter_cons, if_neg ?_, h2]
      simp only [decide_eq_true_eq]
      exact fun hle => absurd hlt (not_lt.mpr hle)
    · rw [if_neg hlt] at h
      match hj : Json.jsonLoadsStringList r.keywordsJson with
      | none => rw [hj] at h; cases h
      | some kws =>
        rw [hj] at h
        match hr : retrieveSimilarSnippets t rs with
        | none => rw [hr] at h; cases h
        | some out' =>
          rw [hr] at h
          cases h
          obtain ⟨h1, h2⟩ := ih out' hr
          constructor
          · intro s hs
            rcases List.mem_cons.mp hs with h | h
            · subst h
              exact not_lt.mp hlt
            · exact h1 s h
          · rw [List.map_cons, List.filter_cons, if_pos (by simpa using not_lt.mp hlt),
              List.map_cons, h2]

theorem retrieveSimilarSnippets_all_below (t : ℚ) :
    ∀ (rows : List ChromaRow), (∀ r ∈ rows, 1 - r.distance < t) →
    retrieveSimilarSnippets t rows = some [] := by
  intro rows
  induction rows with
  | nil => intro _; rfl
  | cons r rs ih =>
    intro h
    rw [retrieveSimilarSnippets, if_pos (h r (by simp))]
    exact ih fun x hx => h x (by simp [hx])

end CodeQA

/-! ## Claim theorems -/

/-- C1: the claim — each `verify` call creates its ephemeral vector collection
under a name unique to that call, never a fixed literal shared across calls,
so concurrent calls produce identical, isolated rankings — fails on the code:
`find_semantic_matches` passes the fixed literal `"temp_document_collection"`
on every call, so any two calls share one name, and in the interleaving where
call B runs `get_or_create_collection` and `add` between call A's `add` and
`query`, call A's collection contains call B's sentence (with a colliding
`doc_sen_0` id), breaking ephemeral-index isolation. -/
theorem k2_ephemeral_name_fixed_across_calls :
    K2.ephemeralNameOfCall 0 = K2.ephemeralNameOfCall 1 ∧
    K2.ephemeralNameOfCall 0 = "temp_document_collection" ∧
    K2.unitsOf
      (K2.addUnits
        (K2.getOrCreateCollection
          (K2.addUnits (K2.getOrCreateCollection [] (K2.ephemeralNameOfCall 0))
            (K2.ephemeralNameOfCall 0) [("doc_sen_0", "Call A sentence.")])
          (K2.ephemeralNameOfCall 1))
        (K2.ephemeralNameOfCall 1) [("doc_sen_0", "Call B sentence.")])
      (K2.ephemeralNameOfCall 0) =
      [("doc_sen_0", "Call A sentence."), ("doc_sen_0", "Call B sentence.")] :=
  ⟨rfl, rfl, rfl⟩

/-- C2: the claim — `destroy` runs on every exit path after the ephemeral
collection exists, including a failure while adding the sentence units —
fails on the code: `doc_collection.add` (line 118) runs before the
`try:`/`finally:` block, so when `add` raises, the collection was created but
`delete_collection` never runs; the `finally:` does guarantee destruction
for failures of the later steps and for success. -/
theorem k2_add_failure_skips_destroy :
    (K2.findSemanticMatchesFlow true false).created = true ∧
    (K2.findSemanticMatchesFlow true false).destroyed = false ∧
    (K2.findSemanticMatchesFlow false true).destroyed = true ∧
    (K2.findSemanticMatchesFlow false false).destroyed = true :=
  ⟨rfl, rfl, rfl, rfl⟩

/-- C3: `destroy(handle)` is idempotent and a no-op on an unknown or
already-destroyed collection, returning normally (it is a total function),
so unconditional cleanup calls are safe. -/
theorem destroy_idempotent_and_noop_on_unknown (s : K2.ClientState) (name : String) :
    K2.destroyCollection (K2.destroyCollection s name) name =
      K2.destroyCollection s name ∧
    (K2.hasCollection s name = false → K2.destroyCollection s name = s) := by
  constructor
  · simp [K2.destroyCollection, List.filter_filter]
  · intro h
    rw [K2.destroyCollection]
    apply List.filter_eq_self.mpr
    intro a ha
    simp only [K2.hasCollection, List.any_eq_false, beq_iff_eq] at h
    simpa [bne_iff_ne] using h a ha

theorem destroy_idempotent_and_noop_on_unknown_witness :
    K2.hasCollection [("document_embeddings", [])] "temp_document_collection" = false ∧
    (K2.destroyCollection (K2.destroyCollection [("document_embeddings", [])]
        "temp_document_collection") "temp_document_collection" =
      K2.destroyCollection [("document_embeddings", [])] "temp_document_collection" ∧
     K2.destroyCollection [("document_embeddings", [])] "temp_document_collection" =
      [("document_embeddings", [])]) :=
  ⟨by decide,
   (destroy_idempotent_and_noop_on_unknown _ _).1,
   (destroy_idempotent_and_noop_on_unknown _ _).2 (by decide)⟩

/-- C4: `retrieve` never returns a match whose similarity is below the
threshold; each returned similarity equals `1 -` the reported distance, the
filter applies within the query's result list, and exactly the rows at or
above the threshold are kept, in order. -/
theorem retrieve_never_below_threshold (t : ℚ) (rows : List CodeQA.ChromaRow)
    (out : List CodeQA.RetrievedSnippet)
    (h : CodeQA.retrieveSimilarSnippets t rows = some out) :
    (∀ s ∈ out, t ≤ s.similarity) ∧
    out.map (fun s => s.similarity) =
      (rows.filter fun r => decide (t ≤ 1 - r.distance)).map fun r => 1 - r.distance :=
  CodeQA.retrieveSimilarSnippets_sound t rows out h

theorem retrieve_never_below_threshold_witness :
    CodeQA.retrieveSimilarSnippets 0
        [⟨"s1", "<nav></nav>", "navbar", "[]", "components", "html", 1⟩] =
      some [⟨"s1", "<nav></nav>", "navbar", [], "components", "html", 1 - 1⟩] ∧
    ((∀ s ∈ [(⟨"s1", "<nav></nav>", "navbar", [], "components", "html",
        1 - 1⟩ : CodeQA.RetrievedSnippet)], (0 : ℚ) ≤ s.similarity) ∧
     [(⟨"s1", "<nav></nav>", "navbar", [], "components", "html", 1 - 1⟩ :
        CodeQA.RetrievedSnippet)].map (fun s => s.similarity) =
      ([(⟨"s1", "<nav></nav>", "navbar", "[]", "components", "html", 1⟩ :
          CodeQA.ChromaRow)].filter fun r => decide ((0 : ℚ) ≤ 1 - r.distance)).map
        fun r => 1 - r.distance) := by
  have h : CodeQA.retrieveSimilarSnippets 0
      [⟨"s1", "<nav></nav>", "navbar", "[]", "components", "html", 1⟩] =
      some [⟨"s1", "<nav></nav>", "navbar", [], "components", "html", 1 - 1⟩] := by
    rw [CodeQA.retrieveSimilarSnippets]
    rw [if_neg (by norm_num)]
    rw [show Json.jsonLoadsStringList "[]" = some [] from by decide]
    rw [show CodeQA.retrieveSimilarSnippets 0 [] = some [] from rfl]
  exact ⟨h, retrieve_never_below_threshold 0 _ _ h⟩

/-- C5: for a non-empty document (so every per-keyword result list from the
ephemeral index is non-empty, chromadb returning `min k |units| ≥ 1` entries
per query) and a non-empty keyword set of size M, `verify` returns exactly M
entries in the per-keyword detail and an overall top of length exactly
`min numResults M`. -/
theorem verify_counts (keywords : List String) (docs : List (List String))
    (dists : List (List ℚ)) (numResults numTop numSentences : ℕ)
    (_hk : keywords ≠ [])
    (hdl : docs.length = keywords.length)
    (hsl : dists.length = keywords.length)
    (hd : ∀ l ∈ docs, l.length = min numTop numSentences)
    (hs : ∀ l ∈ dists, l.length = min numTop numSentences)
    (h1 : 1 ≤ numTop) (h2 : 1 ≤ numSentences) :
    (K2.findSemanticMatches keywords docs dists numResults).2.length =
      keywords.length ∧
    (K2.findSemanticMatches keywords docs dists numResults).1.length =
      min numResults keywords.length := by
  have hmin : 1 ≤ min numTop numSentences := le_min h1 h2
  have hlen : (K2.buildKeywordMatches keywords docs dists).length = keywords.length :=
    K2.buildKeywordMatches_length keywords docs dists hdl hsl
      (fun l hl => by
        intro hnil
        rw [hnil] at hl
        have := hd [] hl
        simp at this
        omega)
      (fun l hl => by
        intro hnil
        rw [hnil] at hl
        have := hs [] hl
        simp at this
        omega)
  constructor
  · exact hlen
  · show ((K2.sortOverall (K2.overallBestMatches
      (K2.buildKeywordMatches keywords docs dists))).take numResults).length = _
    rw [List.length_take, K2.sortOverall, List.length_insertionSort,
      K2.overallBestMatches, List.length_map, hlen]

theorem verify_counts_witness :
    (["cat", "dog"] : List String) ≠ [] ∧
    ([["I own a cat."], ["I own a dog."]] : List (List String)).length =
      (["cat", "dog"] : List String).length ∧
    ([[0], [1]] : List (List ℚ)).length = (["cat", "dog"] : List String).length ∧
    (∀ l ∈ ([["I own a cat."], ["I own a dog."]] : List (List String)),
      l.length = min 1 1) ∧
    (∀ l ∈ ([[0], [1]] : List (List ℚ)), l.length = min 1 1) ∧
    1 ≤ 1 ∧ 1 ≤ 1 ∧
    ((K2.findSemanticMatches ["cat", "dog"] [["I own a cat."], ["I own a dog."]]
        [[0], [1]] 3).2.length = (["cat", "dog"] : List String).length ∧
     (K2.findSemanticMatches ["cat", "dog"] [["I own a cat."], ["I own a dog."]]
        [[0], [1]] 3).1.length = min 3 (["cat", "dog"] : List String).length) := by
  refine ⟨by decide, by decide, by decide, by decide, by decide, by decide, by decide, ?_⟩
  exact verify_counts ["cat", "dog"] [["I own a cat."], ["I own a dog."]]
    [[0], [1]] 3 1 1 (by decide) (by decide) (by decide) (by decide)
    (by decide) (by decide) (by decide)

/-- C6: the overall top ranking is sorted ascending by best-match distance,
and entries with equal distances appear in their original fixed keyword
order: filtering the overall top to any fixed distance yields a prefix of
the same filter of the unsorted best-match list, which is in keyword
order. -/
theorem overallTop_sorted_and_stable (keywords : List String)
    (docs : List (List String)) (dists : List (List ℚ)) (numResults : ℕ) (d : ℚ) :
    List.Pairwise K2.entryLE
      (K2.findSemanticMatches keywords docs dists numResults).1 ∧
    (K2.findSemanticMatches keywords docs dists numResults).1.filter
        (fun e => decide (e.distance = d)) <+:
      (K2.overallBestMatches (K2.buildKeywordMatches keywords docs dists)).filter
        (fun e => decide (e.distance = d)) := by
  constructor
  · have hs : List.Pairwise K2.entryLE
        (K2.sortOverall (K2.overallBestMatches
          (K2.buildKeywordMatches keywords docs dists))) :=
      List.sorted_insertionSort K2.entryLE _
    exact List.Pairwise.take hs
  · show ((K2.sortOverall (K2.overallBestMatches
        (K2.buildKeywordMatches keywords docs dists))).take numResults).filter
        (fun e => decide (e.distance = d)) <+: _
    refine ⟨((K2.sortOverall (K2.overallBestMatches
        (K2.buildKeywordMatches keywords docs dists))).drop numResults).filter
        (fun e => decide (e.distance = d)), ?_⟩
    rw [← List.filter_append, List.take_append_drop, K2.filter_sortOverall]

/-- C7: every stored corpus record embeds the snippet's search metadata
(keywords, description, category/subcategory, search text) and not the code
body, while the stored document text is the code body verbatim; the search
content is unchanged under any replacement of the code body, so the code
never contributes to the vector. -/
theorem embedding_from_metadata_document_is_code (embed : String → List ℚ)
    (snippets : List BuildDB.CodeSnippet) (s : BuildDB.CodeSnippet) (c : String) :
    BuildDB.buildDb embed snippets =
      snippets.map (fun u => BuildDB.storeRecord (embed (BuildDB.searchContent u)) u) ∧
    (BuildDB.storeRecord (embed (BuildDB.searchContent s)) s).document = s.code ∧
    (BuildDB.storeRecord (embed (BuildDB.searchContent s)) s).embedding =
      embed (BuildDB.searchContent s) ∧
    BuildDB.searchContent { s with code := c } = BuildDB.searchContent s := by
  refine ⟨?_, rfl, rfl, rfl⟩
  induction snippets with
  | nil => rfl
  | cons u us ih =>
    rw [List.map_cons, ← ih, BuildDB.buildDb, BuildDB.generateAllEmbeddings,
      BuildDB.buildDb, BuildDB.generateAllEmbeddings, List.map_cons,
      BuildDB.storeSnippets, BuildDB.storeSnippets, List.zip_cons_cons,
      List.map_cons, BuildDB.createSearchEmbedding]

/-- C8: the cosine distance between a zero-norm vector and any vector is
exactly 1, in both argument orders; the guard fires before the division is
performed. -/
theorem cosine_distance_zero_norm (u v : List ℝ) (h : Cosine.normSq u = 0) :
    Cosine.cosineDistance u v = 1 ∧ Cosine.cosineDistance v u = 1 := by
  constructor
  · rw [Cosine.cosineDistance, if_pos (Or.inl h)]
  · rw [Cosine.cosineDistance, if_pos (Or.inr h)]

theorem cosine_distance_zero_norm_witness :
    Cosine.normSq [(0 : ℝ), 0] = 0 ∧
    (Cosine.cosineDistance [(0 : ℝ), 0] [(1 : ℝ), 2] = 1 ∧
     Cosine.cosineDistance [(1 : ℝ), 2] [(0 : ℝ), 0] = 1) := by
  have h : Cosine.normSq [(0 : ℝ), 0] = 0 := by
    simp [Cosine.normSq, Cosine.dot]
  exact ⟨h, cosine_distance_zero_norm [(0 : ℝ), 0] [(1 : ℝ), 2] h⟩

/-- C9: retrieval against an empty corpus, or when every candidate falls
below the similarity threshold, returns an empty list normally (no error),
and `process_query` then builds the simple no-examples prompt. -/
theorem empty_retrieval_normal_and_simple_prompt (t : ℚ) (rows : List CodeQA.ChromaRow)
    (q : String) (h : ∀ r ∈ rows, 1 - r.distance < t) :
    CodeQA.retrieveSimilarSnippets t ([] : List CodeQA.ChromaRow) = some [] ∧
    CodeQA.retrieveSimilarSnippets t rows = some [] ∧
    CodeQA.choosePrompt q [] = CodeQA.buildSimplePrompt q :=
  ⟨rfl, CodeQA.retrieveSimilarSnippets_all_below t rows h, rfl⟩

theorem empty_retrieval_normal_and_simple_prompt_witness :
    (∀ r ∈ [(⟨"s1", "<nav></nav>", "navbar", "[]", "components", "html", 1⟩ :
        CodeQA.ChromaRow)], 1 - r.distance < (1 : ℚ) / 2) ∧
    (CodeQA.retrieveSimilarSnippets (1 / 2) ([] : List CodeQA.ChromaRow) = some [] ∧
     CodeQA.retrieveSimilarSnippets (1 / 2)
        [(⟨"s1", "<nav></nav>", "navbar", "[]", "components", "html", 1⟩ :
          CodeQA.ChromaRow)] = some [] ∧
     CodeQA.choosePrompt "make a navbar" [] =
       CodeQA.buildSimplePrompt "make a navbar") := by
  have h : ∀ r ∈ [(⟨"s1", "<nav></nav>", "navbar", "[]", "components", "html", 1⟩ :
      CodeQA.ChromaRow)], 1 - r.distance < (1 : ℚ) / 2 := by
    intro r hr
    rw [List.mem_singleton] at hr
    subst hr
    norm_num
  exact ⟨h, empty_retrieval_normal_and_simple_prompt (1 / 2) _ "make a navbar" h⟩

/-- C10: a snippet's keyword list round-trips through storage and retrieval:
`store_snippets` JSON-encodes it into the metadata `keywords` field, and
`retrieve_similar_snippets` JSON-decodes that same field back to the original
list in order; the retrieved snippet carries the original keywords. -/
theorem keywords_roundtrip_store_retrieve (emb : List ℚ) (s : BuildDB.CodeSnippet)
    (t dist : ℚ) (h : t ≤ 1 - dist) :
    Json.jsonLoadsStringList ((BuildDB.storeRecord emb s).metadata.keywords) =
      some s.keywords ∧
    CodeQA.retrieveSimilarSnippets t
        [BuildDB.rowOfRecord (BuildDB.storeRecord emb s) dist] =
      some [⟨s.id, s.code, s.description, s.keywords, s.category, s.language,
        1 - dist⟩] := by
  constructor
  · exact Json.jsonLoads_jsonDumps s.keywords
  · rw [CodeQA.retrieveSimilarSnippets]
    simp only [BuildDB.rowOfRecord, BuildDB.storeRecord]
    rw [if_neg (not_lt.mpr h)]
    rw [Json.jsonLoads_jsonDumps]
    rw [show CodeQA.retrieveSimilarSnippets t [] = some [] from rfl]

theorem keywords_roundtrip_store_retrieve_witness :
    ((0 : ℚ) ≤ 1 - 0) ∧
    (Json.jsonLoadsStringList ((BuildDB.storeRecord []
        ⟨"s1", "components", "navigation", ["nav", "menu"], "navbar",
         "navigation bar", "html", "<nav></nav>", [], "basic"⟩).metadata.keywords) =
      some ["nav", "menu"] ∧
     CodeQA.retrieveSimilarSnippets 0
        [BuildDB.rowOfRecord (BuildDB.storeRecord []
          ⟨"s1", "components", "navigation", ["nav", "menu"], "navbar",
           "navigation bar", "html", "<nav></nav>", [], "basic"⟩) 0] =
      some [⟨"s1", "<nav></nav>", "navbar", ["nav", "menu"], "components", "html",
        1 - 0⟩]) := by
  have h : (0 : ℚ) ≤ 1 - 0 := by norm_num
  exact ⟨h, keywords_roundtrip_store_retrieve []
    ⟨"s1", "components", "navigation", ["nav", "menu"], "navbar",
     "navigation bar", "html", "<nav></nav>", [], "basic"⟩ 0 0 h⟩
